import Mathlib

/-!
Verification of the orb command module of a CircleCI CLI client.

The embedding models the code of `src/cmd/orb.go`:

* the decoded GraphQL response shapes (`orbList` for the `ListOrbs` query,
  `orbConfigResponse` for the `ValidateOrb` query);
* the cursor-driven pagination loop `listOrbs`, modelled as a function of the
  sequence of transport outcomes (one per round-trip, each either a decoded
  page or a transport error string);
* the error aggregation method `processErrors`;
* the shared validation query step `orbValidateQuery` and the two commands
  `validateOrb` and `expandOrb`, modelled as functions of the transport
  outcome of the validation request.

The transport collaborator (`client.Run` / `queryAPI`) is external to the
module; it is abstracted as the list of outcomes it produces, in order.
Emission through the logger is modelled by returning the emitted strings.
-/

namespace OrbCmd

/-- One error kind per observable failure class of the commands: a wrapped
transport-level failure, or a validation failure built by `processErrors`. -/
inductive CmdError where
  | transportError (msg : String)
  | validationFailure (msg : String)
deriving DecidableEq

/-! ### Decoded response shapes -/

/-- The `node { name }` object of one edge of the `ListOrbs` response. -/
structure OrbNode where
  Name : String
deriving DecidableEq

/-- One element of `edges` in the `ListOrbs` response: a cursor and a node. -/
structure OrbEdge where
  Cursor : String
  Node : OrbNode
deriving DecidableEq

/-- The `pageInfo` object of the `ListOrbs` response. -/
structure OrbPageInfo where
  HasNextPage : Bool
deriving DecidableEq

/-- The `orbs` object of the `ListOrbs` response. -/
structure OrbConnection where
  TotalCount : Int
  Edges : List OrbEdge
  PageInfo : OrbPageInfo
deriving DecidableEq

/-- The decode target of the `ListOrbs` query (struct `orbList` in the code). -/
structure orbList where
  Orbs : OrbConnection
deriving DecidableEq

/-- One element of `errors` in the `ValidateOrb` response. -/
structure ErrorMessage where
  Message : String
deriving DecidableEq

/-- The `orbConfig` object of the `ValidateOrb` response. -/
structure OrbConfigBody where
  Valid : Bool
  SourceYaml : String
  OutputYaml : String
  Errors : List ErrorMessage
deriving DecidableEq

/-- The decode target of the `ValidateOrb` query (struct `orbConfigResponse`). -/
structure orbConfigResponse where
  OrbConfig : OrbConfigBody
deriving DecidableEq

/-! ### Pagination engine -/

/-- The literal GraphQL document sent by `listOrbs` on every round-trip. -/
def listOrbsQuery : String :=
  "\nquery ListOrbs ($after: String!) \x7b\n  orbs(first: 20, after: $after) \x7b\n\ttotalCount,\n    edges \x7b\n      cursor,\n      node \x7b\n        name\n      \x7d\n    \x7d\n    pageInfo \x7b\n      hasNextPage\n    \x7d\n  \x7d\n\x7d\n\t"

/-- The cursor value held after processing one page: the loop body assigns
`currentCursor = edge.Cursor` for each edge in order, so the page's last
edge's cursor wins, and an edge-less page leaves the cursor unchanged. -/
def cursorAfter (c : String) (page : orbList) : String :=
  page.Orbs.Edges.foldl (fun _ edge => edge.Cursor) c

/-- How one run of the pagination loop ended: normal return (`nil`), an error
return, or the model artifact of exhausting the finite trace of transport
outcomes while the loop would have kept going. -/
inductive RunOutcome where
  | ok
  | failed (e : CmdError)
  | incomplete
deriving DecidableEq

/-- Observable trace of one run of the pagination loop: the orb names emitted
through the logger in order, the `after` variable sent on each round-trip in
order, and how the run ended. -/
structure RunTrace where
  emitted : List String
  sent : List String
  outcome : RunOutcome
deriving DecidableEq

/-- The pagination loop of `listOrbs`, parameterised by the remaining
transport outcomes (one per round-trip) and the current cursor. Each
iteration sends `after = currentCursor`; on transport error it returns the
wrapped error; otherwise it emits every edge's orb name while advancing the
cursor, and stops successfully when `hasNextPage` is false. -/
def listOrbsRun : List (Except String orbList) → String → RunTrace
  | [], _ => ⟨[], [], RunOutcome.incomplete⟩
  | Except.error e :: _, c =>
      ⟨[], [c], RunOutcome.failed (CmdError.transportError ("GraphQL query failed: " ++ e))⟩
  | Except.ok page :: rest, c =>
      let names := page.Orbs.Edges.map fun edge => edge.Node.Name
      if page.Orbs.PageInfo.HasNextPage then
        let t := listOrbsRun rest (cursorAfter c page)
        ⟨names ++ t.emitted, c :: t.sent, t.outcome⟩
      else
        ⟨names, [c], RunOutcome.ok⟩

/-- `listOrbs` starts the traversal with the empty cursor. -/
def listOrbs (responses : List (Except String orbList)) : RunTrace :=
  listOrbsRun responses ""

/-- The requests issued by a run: the fixed `ListOrbs` query paired with the
`after` variable of each round-trip. -/
def listOrbsRequests (t : RunTrace) : List (String × String) :=
  t.sent.map fun a => (listOrbsQuery, a)

/-- The cursor of the last entry yielded by a sequence of pages, or the empty
string when no page has had entries. -/
def lastYieldedCursor (pages : List orbList) : String :=
  ((pages.map fun p => p.Orbs.Edges).flatten).foldl (fun _ edge => edge.Cursor) ""

/-! ### Validation / expansion workflow -/

/-- `processErrors` of `orbConfigResponse`: aggregates the response's error
messages into one error, writing a leading newline and then, per message, the
marker, the message and a trailing comma-newline. -/
def orbConfigResponse.processErrors (response : orbConfigResponse) : CmdError :=
  CmdError.validationFailure
    (response.OrbConfig.Errors.foldl
      (fun buffer e => buffer ++ "-- " ++ e.Message ++ ",\n") "\n")

/-- The shared request/decode step of `validateOrb` and `expandOrb`: a
transport failure is wrapped with the `Unable to validate orb` context, a
successful decode is passed through. -/
def orbValidateQuery (transportResult : Except String orbConfigResponse) :
    Except CmdError orbConfigResponse :=
  match transportResult with
  | Except.error e =>
      Except.error (CmdError.transportError ("Unable to validate orb: " ++ e))
  | Except.ok response => Except.ok response

/-- The `orb validate` command body, given the orb file path and the
transport outcome of the validation request. On success it returns the
success line it logs. -/
def validateOrb (orbPath : String)
    (transportResult : Except String orbConfigResponse) : Except CmdError String :=
  match orbValidateQuery transportResult with
  | Except.error err => Except.error err
  | Except.ok response =>
      if !response.OrbConfig.Valid then
        Except.error response.processErrors
      else
        Except.ok ("Orb at " ++ orbPath ++ " is valid")

/-- The `orb expand` command body, given the transport outcome of the
validation request. On success it returns the expanded document it logs. -/
def expandOrb (transportResult : Except String orbConfigResponse) :
    Except CmdError String :=
  match orbValidateQuery transportResult with
  | Except.error err => Except.error err
  | Except.ok response =>
      if !response.OrbConfig.Valid then
        Except.error response.processErrors
      else
        Except.ok response.OrbConfig.OutputYaml

/-! ### Specification-side rendering of the aggregated error text -/

/-- The aggregate format stated by the specification: a leading newline, then
for each message in order the marker `-- `, the message, a comma and a
newline. -/
def errorAggregate (msgs : List String) : String :=
  "\n" ++ msgs.foldr (fun m acc => "-- " ++ m ++ ",\n" ++ acc) ""

/-! ### Concrete sample inputs for the instantiated statements -/

/-- A valid response that also carries a stray error message, with the
expanded document `x: 1`. -/
def wValid : orbConfigResponse :=
  orbConfigResponse.mk (OrbConfigBody.mk true "x: 1" "x: 1" [ErrorMessage.mk "stray"])

/-- An invalid response carrying the single error message `bad field`. -/
def wBad : orbConfigResponse :=
  orbConfigResponse.mk (OrbConfigBody.mk false "" "" [ErrorMessage.mk "bad field"])

/-- An invalid response carrying no error messages at all. -/
def wEmptyBad : orbConfigResponse :=
  orbConfigResponse.mk (OrbConfigBody.mk false "" "" [])

/-- A first page with two edges and a next page. -/
def wPage1 : orbList :=
  orbList.mk (OrbConnection.mk 3
    [OrbEdge.mk "c1" (OrbNode.mk "alpha"), OrbEdge.mk "c2" (OrbNode.mk "beta")]
    (OrbPageInfo.mk true))

/-- A last page with one edge and no next page. -/
def wPage2 : orbList :=
  orbList.mk (OrbConnection.mk 3
    [OrbEdge.mk "c3" (OrbNode.mk "gamma")]
    (OrbPageInfo.mk false))

/-- A page with no edges that still announces a next page. -/
def wPageEmpty : orbList :=
  orbList.mk (OrbConnection.mk 3 [] (OrbPageInfo.mk true))

/-- A two-page trace: page 1 announces a next page, page 2 does not. -/
def wPages : List orbList := [wPage1, wPage2]

/-- A three-page trace whose middle page is empty but announces a next
page. -/
def wPages3 : List orbList := [wPage1, wPageEmpty, wPage2]

/-! ### Helper lemmas on the error-aggregation fold -/

lemma foldl_errorAggregate (l : List ErrorMessage) (acc : String) :
    l.foldl (fun buffer e => buffer ++ "-- " ++ e.Message ++ ",\n") acc
      = acc ++ (l.map fun e => e.Message).foldr (fun m a => "-- " ++ m ++ ",\n" ++ a) "" := by
  induction l generalizing acc with
  | nil => simp
  | cons x xs ih =>
      rw [List.foldl_cons, ih]
      simp [String.append_assoc]

lemma mem_infix_foldl (e : ErrorMessage) :
    ∀ (l : List ErrorMessage) (acc : String), e ∈ l →
      e.Message.data <:+:
        (l.foldl (fun buffer x => buffer ++ "-- " ++ x.Message ++ ",\n") acc).data := by
  intro l
  induction l with
  | nil => intro acc h; cases h
  | cons x xs ih =>
      intro acc h
      rw [List.foldl_cons]
      rcases List.mem_cons.mp h with rfl | hx
      · have h1 : e.Message.data <:+: (acc ++ "-- " ++ e.Message ++ ",\n").data := by
          refine ⟨acc.data ++ "-- ".data, ",\n".data, ?_⟩
          simp
        have h2 : (acc ++ "-- " ++ e.Message ++ ",\n").data <+:
            (xs.foldl (fun buffer x => buffer ++ "-- " ++ x.Message ++ ",\n")
              (acc ++ "-- " ++ e.Message ++ ",\n")).data := by
          rw [foldl_errorAggregate, String.data_append]
          exact List.prefix_append _ _
        exact h1.trans h2.isInfix
      · exact ih _ hx

/-! ### Helper lemmas on the pagination loop -/

lemma listOrbsRun_nil (c : String) :
    listOrbsRun [] c = RunTrace.mk [] [] RunOutcome.incomplete := rfl

lemma listOrbsRun_error (e : String) (rest : List (Except String orbList)) (c : String) :
    listOrbsRun (Except.error e :: rest) c
      = RunTrace.mk [] [c]
          (RunOutcome.failed
            (CmdError.transportError ("GraphQL query failed: " ++ e))) := rfl

lemma listOrbsRun_ok_true (page : orbList) (rest : List (Except String orbList))
    (c : String) (h : page.Orbs.PageInfo.HasNextPage = true) :
    listOrbsRun (Except.ok page :: rest) c
      = RunTrace.mk
          ((page.Orbs.Edges.map fun edge => edge.Node.Name)
            ++ (listOrbsRun rest (cursorAfter c page)).emitted)
          (c :: (listOrbsRun rest (cursorAfter c page)).sent)
          (listOrbsRun rest (cursorAfter c page)).outcome := by
  simp [listOrbsRun, h]

lemma listOrbsRun_ok_false (page : orbList) (rest : List (Except String orbList))
    (c : String) (h : page.Orbs.PageInfo.HasNextPage = false) :
    listOrbsRun (Except.ok page :: rest) c
      = RunTrace.mk (page.Orbs.Edges.map fun edge => edge.Node.Name) [c]
          RunOutcome.ok := by
  simp [listOrbsRun, h]

lemma sent_length_pos (r : Except String orbList) (rest : List (Except String orbList))
    (c : String) : 0 < (listOrbsRun (r :: rest) c).sent.length := by
  cases r with
  | error e => rw [listOrbsRun_error]; simp
  | ok page =>
      by_cases h : page.Orbs.PageInfo.HasNextPage = true
      · rw [listOrbsRun_ok_true page rest c h]; simp
      · rw [listOrbsRun_ok_false page rest c (by simpa using h)]; simp

lemma foldl_cursor_getLast :
    ∀ (l : List OrbEdge) (c : String) (h : l ≠ []),
      l.foldl (fun _ edge => edge.Cursor) c = (l.getLast h).Cursor := by
  intro l
  induction l with
  | nil => intro c h; cases h rfl
  | cons x xs ih =>
      intro c h
      cases xs with
      | nil => rfl
      | cons y ys =>
          rw [List.foldl_cons, ih x.Cursor (List.cons_ne_nil y ys)]
          exact congrArg OrbEdge.Cursor (List.getLast_cons (List.cons_ne_nil y ys)).symm

lemma cursorAfter_getLast (c : String) (page : orbList) (h : page.Orbs.Edges ≠ []) :
    cursorAfter c page = (page.Orbs.Edges.getLast h).Cursor :=
  foldl_cursor_getLast page.Orbs.Edges c h

lemma lastYieldedCursor_eq_foldl (pages : List orbList) :
    lastYieldedCursor pages = pages.foldl cursorAfter "" := by
  suffices hgen : ∀ (l : List orbList) (c : String),
      ((l.map fun p => p.Orbs.Edges).flatten).foldl (fun _ edge => edge.Cursor) c
        = l.foldl cursorAfter c by
    exact hgen pages ""
  intro l
  induction l with
  | nil => intro c; rfl
  | cons p rest ih =>
      intro c
      rw [List.map_cons, List.flatten_cons, List.foldl_append, List.foldl_cons, ih]
      rfl

lemma sent_getElem :
    ∀ (pages : List orbList) (c : String) (i : Nat),
      i < (listOrbsRun (pages.map Except.ok) c).sent.length →
      (listOrbsRun (pages.map Except.ok) c).sent[i]?
        = some ((pages.take i).foldl cursorAfter c) := by
  intro pages
  induction pages with
  | nil => intro c i hi; rw [List.map_nil, listOrbsRun_nil] at hi; simp at hi
  | cons p rest ih =>
      intro c i hi
      by_cases hn : p.Orbs.PageInfo.HasNextPage = true
      · rw [List.map_cons, listOrbsRun_ok_true p _ c hn] at hi ⊢
        cases i with
        | zero => simp
        | succ j =>
            have hj : j < (listOrbsRun (rest.map Except.ok) (cursorAfter c p)).sent.length := by
              simpa using hi
            simp only [List.getElem?_cons_succ]
            rw [ih (cursorAfter c p) j hj, List.take_succ_cons, List.foldl_cons]
      · rw [List.map_cons, listOrbsRun_ok_false p _ c (by simpa using hn)] at hi ⊢
        have h0 : i = 0 := by simpa using Nat.lt_one_iff.mp (by simpa using hi)
        subst h0
        simp

lemma sent_continue :
    ∀ (pages : List orbList) (c : String) (i : Nat) (p : orbList),
      pages[i]? = some p →
      p.Orbs.PageInfo.HasNextPage = true →
      i < (listOrbsRun (pages.map Except.ok) c).sent.length →
      i + 1 < pages.length →
      i + 1 < (listOrbsRun (pages.map Except.ok) c).sent.length := by
  intro pages
  induction pages with
  | nil => intro c i p hp; simp at hp
  | cons q rest ih =>
      intro c i p hp hnext hi hmore
      cases i with
      | zero =>
          have hq : q = p := by simpa using hp
          subst hq
          rw [List.map_cons, listOrbsRun_ok_true q _ c hnext]
          cases rest with
          | nil => simp at hmore
          | cons r rs =>
              have := sent_length_pos (Except.ok r) (rs.map Except.ok) (cursorAfter c q)
              simp only [List.map_cons]
              simp
              omega
      | succ j =>
          by_cases hq : q.Orbs.PageInfo.HasNextPage = true
          · rw [List.map_cons, listOrbsRun_ok_true q _ c hq] at hi ⊢
            have hj : j < (listOrbsRun (rest.map Except.ok) (cursorAfter c q)).sent.length := by
              simpa using hi
            have hjp : rest[j]? = some p := by simpa using hp
            have := ih (cursorAfter c q) j p hjp hnext hj (by simpa using hmore)
            simp
            omega
          · rw [List.map_cons, listOrbsRun_ok_false q _ c (by simpa using hq)] at hi
            simp at hi

lemma listOrbsRun_pages :
    ∀ (pages : List orbList) (c : String), pages ≠ [] →
      (∀ (i : Nat) (hi : i < pages.length),
        pages[i].Orbs.PageInfo.HasNextPage = decide (i < pages.length - 1)) →
      (listOrbsRun (pages.map Except.ok) c).emitted
          = (pages.map fun p => p.Orbs.Edges.map fun e => e.Node.Name).flatten
        ∧ (listOrbsRun (pages.map Except.ok) c).sent.length = pages.length
        ∧ (listOrbsRun (pages.map Except.ok) c).outcome = RunOutcome.ok := by
  intro pages
  induction pages with
  | nil => intro c h; cases h rfl
  | cons p rest ih =>
      intro c _ hflag
      cases rest with
      | nil =>
          have h0 : p.Orbs.PageInfo.HasNextPage = false := by
            simpa using hflag 0 (by simp)
          rw [List.map_cons, List.map_nil, listOrbsRun_ok_false p [] c h0]
          simp
      | cons q rs =>
          have h0 : p.Orbs.PageInfo.HasNextPage = true := by
            have := hflag 0 (by simp)
            simpa using this
          have hflags' : ∀ (i : Nat) (hi : i < (q :: rs).length),
              (q :: rs)[i].Orbs.PageInfo.HasNextPage
                = decide (i < (q :: rs).length - 1) := by
            intro i hi
            have h1 := hflag (i + 1) (by simpa using Nat.succ_lt_succ hi)
            rw [List.getElem_cons_succ] at h1
            rw [h1]
            apply decide_eq_decide.mpr
            simp only [List.length_cons]
            omega
          obtain ⟨e1, e2, e3⟩ := ih (cursorAfter c p) (by simp) hflags'
          simp only [List.map_cons] at e1 e2 e3
          rw [List.map_cons, listOrbsRun_ok_true p _ c h0]
          refine ⟨?_, ?_, ?_⟩
          · simp [e1]
          · simp [e2]
          · simpa using e3

/-! ### Claims about the pagination engine -/

/-- Claim C1: for every finite sequence of N pages in which page i has
`hasNextPage` true exactly when `i < N-1`, `listOrbs` emits the names of all
pages' edges as the concatenation of the pages' entry lists in server order,
issues exactly N query round-trips, and then returns successfully. -/
theorem listOrbs_pagination (pages : List orbList) (hne : pages ≠ [])
    (hflag : ∀ (i : Nat) (hi : i < pages.length),
      pages[i].Orbs.PageInfo.HasNextPage = decide (i < pages.length - 1)) :
    (listOrbs (pages.map Except.ok)).emitted
        = (pages.map fun p => p.Orbs.Edges.map fun e => e.Node.Name).flatten
      ∧ (listOrbs (pages.map Except.ok)).sent.length = pages.length
      ∧ (listOrbs (pages.map Except.ok)).outcome = RunOutcome.ok :=
  listOrbsRun_pages pages "" hne hflag

/-- Witness for C1: a concrete two-page traversal emitting three orb names
over exactly two round-trips. -/
theorem listOrbs_pagination_witness :
    wPages ≠ []
      ∧ (∀ (i : Nat) (hi : i < wPages.length),
          wPages[i].Orbs.PageInfo.HasNextPage = decide (i < wPages.length - 1))
      ∧ ((listOrbs (wPages.map Except.ok)).emitted
            = (wPages.map fun p => p.Orbs.Edges.map fun e => e.Node.Name).flatten
          ∧ (listOrbs (wPages.map Except.ok)).sent.length = wPages.length
          ∧ (listOrbs (wPages.map Except.ok)).outcome = RunOutcome.ok) :=
  ⟨by decide, by decide, listOrbs_pagination wPages (by decide) (by decide)⟩

/-- Claim C2: the `after` variable of round-trip 1 is the empty string, and
when round-trip i+2 happens and page i (zero-based) has entries, the `after`
variable of round-trip i+2 is the cursor of the last entry yielded during
round-trip i+1. -/
theorem listOrbs_cursor_forwarding (pages : List orbList) (i : Nat) (p : orbList)
    (hp : pages[i]? = some p)
    (hne : p.Orbs.Edges ≠ [])
    (hrt : i + 1 < (listOrbs (pages.map Except.ok)).sent.length) :
    (listOrbs (pages.map Except.ok)).sent[0]? = some ""
      ∧ (listOrbs (pages.map Except.ok)).sent[i + 1]?
          = some ((p.Orbs.Edges.getLast hne).Cursor) := by
  unfold listOrbs at hrt ⊢
  constructor
  · have h0 := sent_getElem pages "" 0 (by omega)
    simpa using h0
  · rw [sent_getElem pages "" (i + 1) hrt, List.take_succ, hp]
    simp only [Option.toList_some, List.foldl_append, List.foldl_cons, List.foldl_nil]
    rw [cursorAfter_getLast _ p hne]

/-- Witness for C2: in the two-page traversal, round-trip 1 sends the empty
cursor and round-trip 2 sends `c2`, the cursor of the last entry of the first
page. -/
theorem listOrbs_cursor_forwarding_witness :
    wPages[0]? = some wPage1
      ∧ wPage1.Orbs.Edges ≠ []
      ∧ 0 + 1 < (listOrbs (wPages.map Except.ok)).sent.length
      ∧ ((listOrbs (wPages.map Except.ok)).sent[0]? = some ""
          ∧ (listOrbs (wPages.map Except.ok)).sent[0 + 1]?
              = some ((wPage1.Orbs.Edges.getLast (by decide)).Cursor)) :=
  ⟨by decide, by decide, by decide,
    listOrbs_cursor_forwarding wPages 0 wPage1 (by decide) (by decide) (by decide)⟩

/-- Claim C3: a round-trip returning a page with no edges but
`hasNextPage = true` does not terminate the traversal: when a further
response exists the loop issues another round-trip, whose `after` variable is
unchanged and equals the cursor of the last entry yielded by any page so far
(the empty string if no page has had entries). -/
theorem listOrbs_empty_page_stall (pages : List orbList) (i : Nat) (p : orbList)
    (hp : pages[i]? = some p)
    (hempty : p.Orbs.Edges = [])
    (hnext : p.Orbs.PageInfo.HasNextPage = true)
    (hrt : i < (listOrbs (pages.map Except.ok)).sent.length)
    (hmore : i + 1 < pages.length) :
    i + 1 < (listOrbs (pages.map Except.ok)).sent.length
      ∧ (listOrbs (pages.map Except.ok)).sent[i + 1]?
          = (listOrbs (pages.map Except.ok)).sent[i]?
      ∧ (listOrbs (pages.map Except.ok)).sent[i + 1]?
          = some (lastYieldedCursor (pages.take (i + 1))) := by
  unfold listOrbs at hrt ⊢
  have hcont := sent_continue pages "" i p hp hnext hrt hmore
  refine ⟨hcont, ?_, ?_⟩
  · rw [sent_getElem pages "" (i + 1) hcont, sent_getElem pages "" i hrt,
      List.take_succ, hp]
    simp only [Option.toList_some, List.foldl_append, List.foldl_cons, List.foldl_nil]
    simp [cursorAfter, hempty]
  · rw [sent_getElem pages "" (i + 1) hcont, lastYieldedCursor_eq_foldl]

/-- Witness for C3: in the three-page traversal whose middle page is empty
but continues, round-trip 3 still happens and re-sends `c2`, the last cursor
yielded by the first page. -/
theorem listOrbs_empty_page_stall_witness :
    wPages3[1]? = some wPageEmpty
      ∧ wPageEmpty.Orbs.Edges = []
      ∧ wPageEmpty.Orbs.PageInfo.HasNextPage = true
      ∧ 1 < (listOrbs (wPages3.map Except.ok)).sent.length
      ∧ 1 + 1 < wPages3.length
      ∧ (1 + 1 < (listOrbs (wPages3.map Except.ok)).sent.length
          ∧ (listOrbs (wPages3.map Except.ok)).sent[1 + 1]?
              = (listOrbs (wPages3.map Except.ok)).sent[1]?
          ∧ (listOrbs (wPages3.map Except.ok)).sent[1 + 1]?
              = some (lastYieldedCursor (wPages3.take (1 + 1)))) :=
  ⟨by decide, rfl, rfl, by decide, by decide,
    listOrbs_empty_page_stall wPages3 1 wPageEmpty (by decide) rfl rfl
      (by decide) (by decide)⟩

/-- Claim C9: a transport error on the first round-trip yields zero
resources and a wrapped transport error, never a validation failure; and on
any round-trip, a transport error aborts that call immediately with no
entries emitted from it. -/
theorem listOrbs_transport_failure (e : String) (rest : List (Except String orbList)) :
    listOrbs (Except.error e :: rest)
        = RunTrace.mk [] [""]
            (RunOutcome.failed
              (CmdError.transportError ("GraphQL query failed: " ++ e)))
      ∧ (∀ s, (listOrbs (Except.error e :: rest)).outcome
            ≠ RunOutcome.failed (CmdError.validationFailure s))
      ∧ ∀ c, listOrbsRun (Except.error e :: rest) c
          = RunTrace.mk [] [c]
              (RunOutcome.failed
                (CmdError.transportError ("GraphQL query failed: " ++ e))) := by
  refine ⟨rfl, ?_, fun c => rfl⟩
  intro s h
  simp [listOrbs, listOrbsRun] at h

/-- Claim C10: the `ListOrbs` query document hardcodes the page-size limit
`first: 20`, and every request a run issues pairs this same fixed document
with its `after` variable, so the requested page size is 20 on every
round-trip. -/
theorem listOrbs_page_size (responses : List (Except String orbList)) :
    "first: 20".data <:+: listOrbsQuery.data
      ∧ ∀ r, r ∈ listOrbsRequests (listOrbs responses) → r.1 = listOrbsQuery := by
  refine ⟨by decide, ?_⟩
  intro r hr
  rcases List.mem_map.mp hr with ⟨a, _, rfl⟩
  rfl

/-! ### Claims about the validation / expansion workflow -/

/-- Claim C4: for every ordered sequence of error messages, `processErrors`
produces an error whose message is a leading newline followed by, for each
message in order, the marker `-- `, the message text, a comma and a newline;
in particular for the two messages `a` and `b` the produced message is
exactly `"\n-- a,\n-- b,\n"`. -/
theorem processErrors_format (response : orbConfigResponse) :
    response.processErrors
        = CmdError.validationFailure
            (errorAggregate (response.OrbConfig.Errors.map fun e => e.Message))
      ∧ (orbConfigResponse.mk
            (OrbConfigBody.mk false "" "" [ErrorMessage.mk "a", ErrorMessage.mk "b"])).processErrors
          = CmdError.validationFailure "\n-- a,\n-- b,\n" := by
  constructor
  · unfold orbConfigResponse.processErrors errorAggregate
    rw [foldl_errorAggregate]
  · decide

/-- Claim C5: for every decoded validation response with `valid = true`,
`validateOrb` succeeds and `expandOrb` succeeds emitting exactly the
response's `outputYaml`, with no condition on the `errors` list (a non-empty
list is tolerated). -/
theorem validate_expand_success (orbPath : String) (response : orbConfigResponse)
    (hvalid : response.OrbConfig.Valid = true) :
    validateOrb orbPath (Except.ok response)
        = Except.ok ("Orb at " ++ orbPath ++ " is valid")
      ∧ expandOrb (Except.ok response) = Except.ok response.OrbConfig.OutputYaml := by
  constructor <;> simp [validateOrb, expandOrb, orbValidateQuery, hvalid]

/-- Witness for C5: a concrete valid response whose `errors` list is
non-empty and whose `outputYaml` is `x: 1`. -/
theorem validate_expand_success_witness :
    wValid.OrbConfig.Valid = true
      ∧ wValid.OrbConfig.Errors ≠ []
      ∧ wValid.OrbConfig.OutputYaml = "x: 1"
      ∧ (validateOrb "orb.yml" (Except.ok wValid)
            = Except.ok ("Orb at " ++ "orb.yml" ++ " is valid")
          ∧ expandOrb (Except.ok wValid) = Except.ok wValid.OrbConfig.OutputYaml) :=
  ⟨rfl, by decide, rfl, validate_expand_success "orb.yml" wValid rfl⟩

/-- Claim C6: for every decoded validation response with `valid = false`,
`validateOrb` and `expandOrb` fail with one and the same `ValidationFailure`
error whose message contains every error message of the response, and
`expandOrb` emits no expanded document. -/
theorem validate_expand_failure (orbPath : String) (response : orbConfigResponse)
    (hvalid : response.OrbConfig.Valid = false) :
    validateOrb orbPath (Except.ok response) = Except.error response.processErrors
      ∧ expandOrb (Except.ok response) = Except.error response.processErrors
      ∧ ∃ msg, response.processErrors = CmdError.validationFailure msg
          ∧ ∀ e, e ∈ response.OrbConfig.Errors → e.Message.data <:+: msg.data := by
  refine ⟨by simp [validateOrb, orbValidateQuery, hvalid],
    by simp [expandOrb, orbValidateQuery, hvalid], ⟨_, rfl, ?_⟩⟩
  intro e he
  exact mem_infix_foldl e _ _ he

/-- Witness for C6: the concrete invalid response with the single error
message `bad field`. -/
theorem validate_expand_failure_witness :
    wBad.OrbConfig.Valid = false
      ∧ (validateOrb "orb.yml" (Except.ok wBad) = Except.error wBad.processErrors
          ∧ expandOrb (Except.ok wBad) = Except.error wBad.processErrors
          ∧ ∃ msg, wBad.processErrors = CmdError.validationFailure msg
              ∧ ∀ e, e ∈ wBad.OrbConfig.Errors → e.Message.data <:+: msg.data) :=
  ⟨rfl, validate_expand_failure "orb.yml" wBad rfl⟩

/-- Claim C7: for every decoded validation response with `valid = false` and
an empty `errors` list, `validateOrb` and `expandOrb` both still fail, and
the failure's message is the degenerate aggregate consisting of only the
leading newline. -/
theorem validate_expand_empty_errors (orbPath : String) (response : orbConfigResponse)
    (hvalid : response.OrbConfig.Valid = false)
    (herrors : response.OrbConfig.Errors = []) :
    validateOrb orbPath (Except.ok response)
        = Except.error (CmdError.validationFailure "\n")
      ∧ expandOrb (Except.ok response)
        = Except.error (CmdError.validationFailure "\n") := by
  constructor <;>
    simp [validateOrb, expandOrb, orbValidateQuery, hvalid,
      orbConfigResponse.processErrors, herrors]

/-- Witness for C7: the concrete invalid response with no error messages. -/
theorem validate_expand_empty_errors_witness :
    wEmptyBad.OrbConfig.Valid = false
      ∧ wEmptyBad.OrbConfig.Errors = []
      ∧ (validateOrb "orb.yml" (Except.ok wEmptyBad)
            = Except.error (CmdError.validationFailure "\n")
          ∧ expandOrb (Except.ok wEmptyBad)
            = Except.error (CmdError.validationFailure "\n")) :=
  ⟨rfl, rfl, validate_expand_empty_errors "orb.yml" wEmptyBad rfl rfl⟩

/-- Counterexample for C8: on the transport failure `connection refused`, the
wrapped message is `Unable to validate orb: connection refused`, which does
not contain the claimed literal context `unable to validate` (the code
capitalizes the context and names the orb operation). -/
theorem orbValidateQuery_wrap_context_cex :
    orbValidateQuery (Except.error "connection refused")
        = Except.error
            (CmdError.transportError "Unable to validate orb: connection refused")
      ∧ ¬ ("unable to validate".data <:+:
            "Unable to validate orb: connection refused".data) :=
  ⟨rfl, by decide⟩

/-- Claim C8 (amended): every transport or mapper failure of the shared
validation request step is wrapped with the context `Unable to validate orb`,
which is a distinct error kind from a `ValidationFailure`. -/
theorem orbValidateQuery_wrap_context (e : String) :
    orbValidateQuery (Except.error e)
        = Except.error (CmdError.transportError ("Unable to validate orb: " ++ e))
      ∧ "Unable to validate orb".data <:+: ("Unable to validate orb: " ++ e).data
      ∧ ∀ s, CmdError.transportError ("Unable to validate orb: " ++ e)
              ≠ CmdError.validationFailure s := by
  refine ⟨rfl, ?_, fun s h => CmdError.noConfusion h⟩
  have h1 : "Unable to validate orb".data <+: "Unable to validate orb: ".data := by decide
  have h2 : "Unable to validate orb".data <+:
      ("Unable to validate orb: " ++ e).data := by
    rw [String.data_append]
    exact h1.trans (List.prefix_append _ _)
  exact h2.isInfix

end OrbCmd
